import Mathlib

/-!
Verification of the span-replacement script `temp_replace.py`.

The script reads a file, locates two marker strings with `str.index`,
splices a replacement between the two located positions, and writes the
result back.  We embed the text as a list of characters, Python's
`str.index(needle)` as `find` (and `str.index(needle, s)` as `findFrom`),
the `ValueError` raised by a failed lookup as the spec's single error
kind `MarkerNotFound`, and the whole in-memory transformation as the
generalized contract `replace_span` of the specification, instantiated by
the script at its hard-coded markers.
-/

/-- Documents, markers and replacements are sequences of characters. -/
abbrev Doc := List Char

/-- Boolean test that `needle` matches at the very front of `d`
(`needle` is an initial segment of `d`). -/
def matchesAt : Doc → Doc → Bool
  | [], _ => true
  | _ :: _, [] => false
  | a :: ns, b :: ds => a == b && matchesAt ns ds

/-- Embedding of Python's `text.index(needle)` (two-argument form on the
whole text, scanning from offset 0): the smallest index at which `needle`
matches, or `none` when there is no match (Python raises `ValueError`). -/
def find (needle : Doc) : Doc → Option Nat
  | [] => if matchesAt needle [] then some 0 else none
  | c :: tl =>
    if matchesAt needle (c :: tl) then some 0
    else Option.map (fun k => k + 1) (find needle tl)

/-- Embedding of Python's `text.index(needle, s)`: the smallest index
`k ≥ s` at which `needle` matches, or `none`.  The script never uses this
form; the specification's §4.1 step 2 is phrased in terms of it. -/
def findFrom (needle doc : Doc) (s : Nat) : Option Nat :=
  Option.map (fun k => k + s) (find needle (doc.drop s))

/-- The specification's single error kind, `MarkerNotFound`, carrying the
marker that could not be located (the script's `ValueError`). -/
inductive Err where
  | markerNotFound : Doc → Err
deriving DecidableEq

/-- Equality of outcomes (success value or failure) is decidable, so that
claims can be checked on concrete inputs. -/
instance decEqExcept : DecidableEq (Except Err Doc) := fun a b =>
  match a, b with
  | Except.ok x, Except.ok y =>
    if h : x = y then isTrue (by rw [h]) else isFalse (by simp [h])
  | Except.ok _, Except.error _ => isFalse (by simp)
  | Except.error _, Except.ok _ => isFalse (by simp)
  | Except.error x, Except.error y =>
    if h : x = y then isTrue (by rw [h]) else isFalse (by simp [h])

/-- The in-memory transformation of lines 5-8 of the script, generalized
to the contract of §4.1: locate the first occurrence of the start marker,
locate the first occurrence of the end marker (as in the source, `index`
scans the whole text), and splice `document[0:i] + replacement + document[j:]`. -/
def replace_span (document start_marker end_marker replacement : Doc) :
    Except Err Doc :=
  match find start_marker document with
  | none => Except.error (Err.markerNotFound start_marker)
  | some i =>
    match find end_marker document with
    | none => Except.error (Err.markerNotFound end_marker)
    | some j => Except.ok (document.take i ++ replacement ++ document.drop j)

/-- The start marker hard-coded at line 5 of the script. -/
def scriptStartMarker : Doc := "const RoleRecommendations".toList

/-- The end marker hard-coded at line 6 of the script. -/
def scriptEndMarker : Doc := "const RecommendationDetailDialog".toList

/-- The replacement block hard-coded at line 7 of the script. -/
def scriptBlock : Doc := "const RoleColumns = () => null;\n".toList

/-- The whole script applied to the content read at line 4: the
transformation of lines 5-8 at the script's hard-coded markers.  An
exception aborts the script before the write at line 9. -/
def runScript (content : Doc) : Except Err Doc :=
  replace_span content scriptStartMarker scriptEndMarker scriptBlock

/-- Content of the target file after the script has run: line 9 writes
the transformed text only when lines 5-8 raised no exception; otherwise
the file keeps its previous content. -/
def fileAfter (content : Doc) : Doc :=
  match runScript content with
  | Except.ok t => t
  | Except.error _ => content

/-- Occurrence of `needle` in `doc` at index `k`: the text from offset
`k` on starts with `needle`. -/
def occursAt (needle doc : Doc) (k : Nat) : Prop :=
  ∃ t, doc.drop k = needle ++ t

/-- Index `k` is the first (lowest) occurrence of `needle` in `doc`. -/
def isFirstOcc (needle doc : Doc) (k : Nat) : Prop :=
  occursAt needle doc k ∧ ∀ m, m < k → ¬ occursAt needle doc m

theorem matchesAt_iff (needle d : Doc) :
    matchesAt needle d = true ↔ ∃ t, d = needle ++ t := by
  induction needle generalizing d with
  | nil => simp [matchesAt]
  | cons a ns ih =>
    cases d with
    | nil => simp [matchesAt]
    | cons b ds =>
      simp only [matchesAt, Bool.and_eq_true, beq_iff_eq, ih, List.cons_append,
        List.cons.injEq]
      constructor
      · rintro ⟨hab, t, ht⟩
        exact ⟨t, hab.symm, ht⟩
      · rintro ⟨t, hba, ht⟩
        exact ⟨hba.symm, t, ht⟩

theorem find_some_matches (needle : Doc) :
    ∀ (d : Doc) (k : Nat), find needle d = some k →
      matchesAt needle (d.drop k) = true ∧
      ∀ m, m < k → matchesAt needle (d.drop m) = false := by
  intro d
  induction d with
  | nil =>
    intro k h
    by_cases hm : matchesAt needle [] = true
    · simp [find, hm] at h
      subst h
      exact ⟨hm, by omega⟩
    · simp [find, hm] at h
  | cons c tl ih =>
    intro k h
    by_cases hm : matchesAt needle (c :: tl) = true
    · simp [find, hm] at h
      subst h
      exact ⟨hm, by omega⟩
    · simp [find, hm] at h
      obtain ⟨k', hk', rfl⟩ := h
      obtain ⟨h1, h2⟩ := ih k' hk'
      refine ⟨h1, ?_⟩
      intro m hmk
      cases m with
      | zero => simpa using Bool.eq_false_iff.mpr hm
      | succ m' => exact h2 m' (by omega)

theorem find_none_matches (needle : Doc) :
    ∀ d : Doc, find needle d = none →
      ∀ m, matchesAt needle (d.drop m) = false := by
  intro d
  induction d with
  | nil =>
    intro h m
    by_cases hm : matchesAt needle [] = true
    · simp [find, hm] at h
    · simpa using Bool.eq_false_iff.mpr hm
  | cons c tl ih =>
    intro h m
    by_cases hm : matchesAt needle (c :: tl) = true
    · simp [find, hm] at h
    · simp [find, hm] at h
      cases m with
      | zero => simpa using Bool.eq_false_iff.mpr hm
      | succ m' => exact ih h m'

theorem find_le (needle : Doc) :
    ∀ (d : Doc) (k : Nat), find needle d = some k → k ≤ d.length := by
  intro d
  induction d with
  | nil =>
    intro k h
    by_cases hm : matchesAt needle [] = true
    · simp [find, hm] at h
      omega
    · simp [find, hm] at h
  | cons c tl ih =>
    intro k h
    by_cases hm : matchesAt needle (c :: tl) = true
    · simp [find, hm] at h
      omega
    · simp [find, hm] at h
      obtain ⟨k', hk', rfl⟩ := h
      have := ih k' hk'
      simp
      omega

theorem find_isSome_of_occurs (needle d : Doc) (m : Nat)
    (h : occursAt needle d m) : ∃ k, find needle d = some k := by
  cases hf : find needle d with
  | none =>
    have := find_none_matches needle d hf m
    rw [Bool.eq_false_iff] at this
    exact absurd ((matchesAt_iff needle (d.drop m)).mpr h) this
  | some k => exact ⟨k, rfl⟩

theorem find_iff_isFirstOcc (needle d : Doc) (k : Nat) :
    find needle d = some k ↔ isFirstOcc needle d k := by
  constructor
  · intro h
    obtain ⟨h1, h2⟩ := find_some_matches needle d k h
    refine ⟨(matchesAt_iff needle (d.drop k)).mp h1, ?_⟩
    intro m hm hocc
    have := h2 m hm
    rw [Bool.eq_false_iff] at this
    exact this ((matchesAt_iff needle (d.drop m)).mpr hocc)
  · rintro ⟨hocc, hmin⟩
    obtain ⟨k', hk'⟩ := find_isSome_of_occurs needle d k hocc
    obtain ⟨h1, h2⟩ := find_some_matches needle d k' hk'
    rcases Nat.lt_trichotomy k' k with hlt | heq | hgt
    · exact absurd ((matchesAt_iff needle (d.drop k')).mp h1) (hmin k' hlt)
    · rwa [heq] at hk'
    · have := h2 k hgt
      rw [Bool.eq_false_iff] at this
      exact absurd ((matchesAt_iff needle (d.drop k)).mpr hocc) this

theorem isFirstOcc_unique (needle d : Doc) (k1 k2 : Nat)
    (h1 : isFirstOcc needle d k1) (h2 : isFirstOcc needle d k2) : k1 = k2 := by
  have e1 := (find_iff_isFirstOcc needle d k1).mpr h1
  have e2 := (find_iff_isFirstOcc needle d k2).mpr h2
  rw [e1] at e2
  exact Option.some.inj e2

/-- C1, counterexample: the claim says the splice end `j` is the first
occurrence of the end marker found scanning from offset `i` (the start
marker's index).  In `"endstartend"` with markers `"start"`/`"end"`, both
markers occur, `i = 3`, scanning from `3` finds the end marker at `8`,
but the code (whose `index` call has no start offset) uses `0` and its
result differs from the one the claim prescribes. -/
theorem C1_counterexample :
    find ("start".toList) ("endstartend".toList) = some 3 ∧
    find ("end".toList) ("endstartend".toList) = some 0 ∧
    findFrom ("end".toList) ("endstartend".toList) 3 = some 8 ∧
    find ("end".toList) ("endstartend".toList) ≠
      findFrom ("end".toList) ("endstartend".toList) 3 ∧
    replace_span ("endstartend".toList) ("start".toList) ("end".toList) ("R".toList) ≠
      Except.ok (("endstartend".toList).take 3 ++ "R".toList ++
        ("endstartend".toList).drop 8) := by
  exact ⟨by decide, by decide, by decide, by decide, by decide⟩

/-- C1, amended: for every document in which both markers occur, the
index `j` used as the splice end is the first occurrence of the end
marker in the whole document, found by scanning from offset 0 (not from
offset `i`). -/
theorem C1_amended (doc s e r : Doc) (i j : Nat)
    (hs : find s doc = some i) (he : find e doc = some j) :
    isFirstOcc e doc j ∧
    replace_span doc s e r = Except.ok (doc.take i ++ r ++ doc.drop j) := by
  refine ⟨(find_iff_isFirstOcc e doc j).mp he, ?_⟩
  simp [replace_span, hs, he]

/-- C1, witness for the amended theorem at a concrete input. -/
theorem C1_amended_witness :
    isFirstOcc ("end".toList) ("endstartend".toList) 0 ∧
    replace_span ("endstartend".toList) ("start".toList) ("end".toList) ("R".toList) =
      Except.ok (("endstartend".toList).take 3 ++ "R".toList ++
        ("endstartend".toList).drop 0) :=
  C1_amended ("endstartend".toList) ("start".toList) ("end".toList) ("R".toList)
    3 0 (by decide) (by decide)

/-- C2, counterexample: with `j` as defined by the specification's search
semantics (first occurrence of the end marker scanning from `i`), the
result is not `document[0:i] + replacement + document[j:]` when the end
marker also occurs before `i`: in `"endstartXend"` the spec's `j` is `9`,
but the code splices at the global first occurrence `0`. -/
theorem C2_counterexample :
    find ("start".toList) ("endstartXend".toList) = some 3 ∧
    findFrom ("end".toList) ("endstartXend".toList) 3 = some 9 ∧
    replace_span ("endstartXend".toList) ("start".toList) ("end".toList) ("R".toList) ≠
      Except.ok (("endstartXend".toList).take 3 ++ "R".toList ++
        ("endstartXend".toList).drop 9) := by
  exact ⟨by decide, by decide, by decide⟩

/-- C2, amended: when the start marker first occurs at `i` and the end
marker first occurs (in the whole document, scanning from offset 0) at
`j`, the operation returns exactly `document[0:i] + replacement +
document[j:]`; the text before `i` and the text from `j` onward are
preserved verbatim around the replacement. -/
theorem C2_amended (doc s e r : Doc) (i j : Nat)
    (hs : find s doc = some i) (he : find e doc = some j) :
    replace_span doc s e r = Except.ok (doc.take i ++ r ++ doc.drop j) ∧
    (doc.take i ++ r ++ doc.drop j).take i = doc.take i ∧
    (doc.take i ++ r ++ doc.drop j).drop (i + r.length) = doc.drop j := by
  have hi : i ≤ doc.length := find_le s doc i hs
  have hlen : (doc.take i).length = i := by
    rw [List.length_take]
    exact min_eq_left hi
  refine ⟨by simp [replace_span, hs, he], ?_, ?_⟩
  · rw [List.take_append_of_le_length (by simp [hlen]),
      List.take_append_of_le_length (by rw [hlen]), List.take_take]
    simp
  · have hlen2 : (doc.take i ++ r).length = i + r.length := by simp [hlen]
    rw [← hlen2, List.drop_left]

/-- C2, witness for the amended theorem at a concrete input
(Example 1 of the specification). -/
theorem C2_amended_witness :
    replace_span ("ABCstartXYZendDEF".toList) ("start".toList) ("end".toList) ("R".toList) =
      Except.ok (("ABCstartXYZendDEF".toList).take 3 ++ "R".toList ++
        ("ABCstartXYZendDEF".toList).drop 11) ∧
    (("ABCstartXYZendDEF".toList).take 3 ++ "R".toList ++
        ("ABCstartXYZendDEF".toList).drop 11).take 3 = ("ABCstartXYZendDEF".toList).take 3 ∧
    (("ABCstartXYZendDEF".toList).take 3 ++ "R".toList ++
        ("ABCstartXYZendDEF".toList).drop 11).drop (3 + ("R".toList).length) =
      ("ABCstartXYZendDEF".toList).drop 11 :=
  C2_amended ("ABCstartXYZendDEF".toList) ("start".toList) ("end".toList) ("R".toList)
    3 11 (by decide) (by decide)

/-- C6: when the code succeeds, the splice start `i` returned by the
first `index` call is the lowest index at which the start marker occurs
(later occurrences never affect the result, which is a function of `i`,
`j` and the inputs alone); stated for documents in which the start marker
occurs more than once. -/
theorem C6 (doc s e r : Doc) (i : Nat) (hs : find s doc = some i)
    (hmulti : ∃ k, i < k ∧ occursAt s doc k) :
    isFirstOcc s doc i ∧
    ∀ j, find e doc = some j →
      replace_span doc s e r = Except.ok (doc.take i ++ r ++ doc.drop j) := by
  refine ⟨(find_iff_isFirstOcc s doc i).mp hs, ?_⟩
  intro j hj
  simp [replace_span, hs, hj]

/-- C6, witness: in `"XabYabZ"` the start marker `"ab"` occurs at 1 and 4;
the splice uses the lowest index 1. -/
theorem C6_witness :
    replace_span ("XabYabZ".toList) ("ab".toList) ("Z".toList) ("R".toList) =
      Except.ok (("XabYabZ".toList).take 1 ++ "R".toList ++ ("XabYabZ".toList).drop 6) :=
  (C6 ("XabYabZ".toList) ("ab".toList) ("Z".toList) ("R".toList) 1 (by decide)
    ⟨4, by omega, "Z".toList, by decide⟩).2 6 (by decide)

/-- C10: when the end marker's first occurrence `j` (the code scans the
whole document from offset 0) lies strictly before the start marker's
first occurrence `i`, the operation still succeeds and returns
`document[0:i] + replacement + document[j:]`, in which the segment
`document[j:i]` appears both before the replacement (as the tail of
`document[0:i]`) and again after it (as the head of `document[j:]`). -/
theorem C10 (doc s e r : Doc) (i j : Nat)
    (hs : find s doc = some i) (he : find e doc = some j) (hji : j < i) :
    replace_span doc s e r =
      Except.ok ((doc.take j ++ (doc.drop j).take (i - j)) ++ r ++
        ((doc.drop j).take (i - j) ++ doc.drop i)) := by
  have hik : i = j + (i - j) := by omega
  have h1 : doc.take i = doc.take j ++ (doc.drop j).take (i - j) := by
    conv_lhs => rw [hik]
    rw [List.take_add]
  have h2 : doc.drop j = (doc.drop j).take (i - j) ++ doc.drop i := by
    conv_lhs => rw [← List.take_append_drop (i - j) (doc.drop j)]
    rw [List.drop_drop, ← hik]
  rw [← h1, ← h2]
  simp [replace_span, hs, he]

/-- C10, witness: in `"endXstartY"` the end marker `"end"` first occurs at
0, before the start marker `"start"` at 4; the duplicated segment is
`"endX"`. -/
theorem C10_witness :
    replace_span ("endXstartY".toList) ("start".toList) ("end".toList) ("R".toList) =
      Except.ok ((("endXstartY".toList).take 0 ++
          (("endXstartY".toList).drop 0).take (4 - 0)) ++ "R".toList ++
        ((("endXstartY".toList).drop 0).take (4 - 0) ++ ("endXstartY".toList).drop 4)) :=
  C10 ("endXstartY".toList) ("start".toList) ("end".toList) ("R".toList)
    4 0 (by decide) (by decide) (by decide)

/-- C3, counterexample: the claim says the operation fails when the end
marker is absent from the sub-range starting at `i`.  In `"endstart"`
the start marker `"start"` is at `i = 3` and the end marker `"end"` does
not occur at or after 3, yet the code succeeds (its `index` call scans
from offset 0 and finds the occurrence at 0). -/
theorem C3_counterexample :
    find ("start".toList) ("endstart".toList) = some 3 ∧
    findFrom ("end".toList) ("endstart".toList) 3 = none ∧
    replace_span ("endstart".toList) ("start".toList) ("end".toList) ("R".toList) =
      Except.ok (("endstart".toList).take 3 ++ "R".toList ++ ("endstart".toList).drop 0) := by
  exact ⟨by decide, by decide, by decide⟩

/-- C3, amended: the operation fails with `MarkerNotFound` if and only if
a marker cannot be located anywhere in the document: it fails when the
start marker does not occur, it fails when the end marker does not occur
anywhere in the document (the search scans from offset 0, not from `i`),
and whenever both lookups succeed it returns a full result, never a
partial one. -/
theorem C3_amended (doc s e r : Doc) :
    ((∃ err, replace_span doc s e r = Except.error err) ↔
      ((∀ k, ¬ occursAt s doc k) ∨ (∀ k, ¬ occursAt e doc k))) ∧
    ((∃ k, occursAt s doc k) → (∃ k, occursAt e doc k) →
      ∃ i j, find s doc = some i ∧ find e doc = some j ∧
        replace_span doc s e r = Except.ok (doc.take i ++ r ++ doc.drop j)) := by
  constructor
  · constructor
    · rintro ⟨err, herr⟩
      cases hfs : find s doc with
      | none =>
        left
        intro k hk
        have := find_none_matches s doc hfs k
        rw [Bool.eq_false_iff] at this
        exact this ((matchesAt_iff s (doc.drop k)).mpr hk)
      | some i =>
        cases hfe : find e doc with
        | none =>
          right
          intro k hk
          have := find_none_matches e doc hfe k
          rw [Bool.eq_false_iff] at this
          exact this ((matchesAt_iff e (doc.drop k)).mpr hk)
        | some j => simp [replace_span, hfs, hfe] at herr
    · intro h
      cases hfs : find s doc with
      | none => exact ⟨Err.markerNotFound s, by simp [replace_span, hfs]⟩
      | some i =>
        cases hfe : find e doc with
        | none => exact ⟨Err.markerNotFound e, by simp [replace_span, hfs, hfe]⟩
        | some j =>
          rcases h with h | h
          · exact absurd ((find_iff_isFirstOcc s doc i).mp hfs).1 (h i)
          · exact absurd ((find_iff_isFirstOcc e doc j).mp hfe).1 (h j)
  · rintro ⟨ks, hks⟩ ⟨ke, hke⟩
    obtain ⟨i, hi⟩ := find_isSome_of_occurs s doc ks hks
    obtain ⟨j, hj⟩ := find_isSome_of_occurs e doc ke hke
    exact ⟨i, j, hi, hj, by simp [replace_span, hi, hj]⟩

/-- C3, witness of the amended theorem: Example 3 of the specification,
`"noMarkersHere"` with absent start marker `"X"`, fails with
`MarkerNotFound`. -/
theorem C3_amended_witness :
    ∃ err, replace_span ("noMarkersHere".toList) ("X".toList) ("end".toList) ("R".toList) =
      Except.error err :=
  (C3_amended ("noMarkersHere".toList) ("X".toList) ("end".toList) ("R".toList)).1.mpr
    (Or.inl (fun k hk =>
      Bool.eq_false_iff.mp
        (find_none_matches ("X".toList) ("noMarkersHere".toList) (by decide) k)
        ((matchesAt_iff ("X".toList) (("noMarkersHere".toList).drop k)).mpr hk)))

/-- C4: atomicity of the script with respect to its output file.  When a
marker lookup fails, the script raises before line 9, no output is
produced and the file keeps its previous content; and whenever the file
content changes at all, the whole transformation succeeded and the file
holds exactly its full result. -/
theorem C4 (content : Doc) :
    ((find scriptStartMarker content = none ∨ find scriptEndMarker content = none) →
      (∃ err, runScript content = Except.error err) ∧ fileAfter content = content) ∧
    (fileAfter content ≠ content →
      ∃ out, runScript content = Except.ok out ∧ fileAfter content = out) := by
  constructor
  · intro h
    rcases h with h | h
    · exact ⟨⟨Err.markerNotFound scriptStartMarker,
        by simp [runScript, replace_span, h]⟩, by simp [fileAfter, runScript, replace_span, h]⟩
    · cases hfs : find scriptStartMarker content with
      | none => exact ⟨⟨Err.markerNotFound scriptStartMarker,
          by simp [runScript, replace_span, hfs]⟩,
          by simp [fileAfter, runScript, replace_span, hfs]⟩
      | some i => exact ⟨⟨Err.markerNotFound scriptEndMarker,
          by simp [runScript, replace_span, hfs, h]⟩,
          by simp [fileAfter, runScript, replace_span, hfs, h]⟩
  · intro hne
    cases hr : runScript content with
    | error err =>
      exact absurd (by simp [fileAfter, hr]) hne
    | ok out =>
      exact ⟨out, rfl, by simp [fileAfter, hr]⟩

/-- C4, witness: on content `"hello"`, in which the start marker is
absent, the script fails and the file is unchanged. -/
theorem C4_witness :
    (∃ err, runScript ("hello".toList) = Except.error err) ∧
    fileAfter ("hello".toList) = "hello".toList :=
  (C4 ("hello".toList)).1 (Or.inl (by decide))

/-- C5, counterexample: with `i` and `j` as defined in §4.1 (`j` found by
scanning from `i`), the returned string's length is not
`i + len(replacement) + (len(document) - j)` when the end marker also
occurs before `i`: in `"endstartQend"` (length 12) with replacement
`"RR"`, §4.1 gives `i = 3`, `j = 9`, predicting length 8, but the code
returns a string of length 17. -/
theorem C5_counterexample :
    find ("start".toList) ("endstartQend".toList) = some 3 ∧
    findFrom ("end".toList) ("endstartQend".toList) 3 = some 9 ∧
    replace_span ("endstartQend".toList) ("start".toList) ("end".toList) ("RR".toList) =
      Except.ok ("endRRendstartQend".toList) ∧
    ("endRRendstartQend".toList).length ≠
      3 + ("RR".toList).length + (("endstartQend".toList).length - 9) := by
  exact ⟨by decide, by decide, by decide, by decide⟩

/-- C5, amended: when both markers are present, with `i` the start
marker's first index and `j` the end marker's first index in the whole
document (scan from offset 0), the returned string has length exactly
`i + len(replacement) + (len(document) - j)`. -/
theorem C5_amended (doc s e r : Doc) (i j : Nat)
    (hs : find s doc = some i) (he : find e doc = some j) :
    ∃ res, replace_span doc s e r = Except.ok res ∧
      res.length = i + r.length + (doc.length - j) := by
  have hi : i ≤ doc.length := find_le s doc i hs
  refine ⟨doc.take i ++ r ++ doc.drop j, by simp [replace_span, hs, he], ?_⟩
  simp [List.length_take, List.length_drop, min_eq_left hi]
  omega

/-- C5, witness of the amended theorem on Example 1 of the specification. -/
theorem C5_amended_witness :
    ∃ res, replace_span ("ABCstartXYZendDEF".toList) ("start".toList) ("end".toList)
        ("R".toList) = Except.ok res ∧
      res.length = 3 + ("R".toList).length + (("ABCstartXYZendDEF".toList).length - 11) :=
  C5_amended ("ABCstartXYZendDEF".toList) ("start".toList) ("end".toList) ("R".toList)
    3 11 (by decide) (by decide)

/-- C7, counterexample: the claim fixes `j` as the first occurrence of
the end marker scanning from `i` and asserts the result is
`document[0:i] + replacement + document[j:]`.  In `"bXab"` with start
marker `"ab"` (at `i = 2`) and end marker `"b"`, the scan from `i` finds
`j = 3 < i + 2` (overlap), but the code splices at the global first
occurrence 0, so the claimed result value is wrong. -/
theorem C7_counterexample :
    find ("ab".toList) ("bXab".toList) = some 2 ∧
    findFrom ("b".toList) ("bXab".toList) 2 = some 3 ∧
    (3 : Nat) < 2 + ("ab".toList).length ∧
    replace_span ("bXab".toList) ("ab".toList) ("b".toList) ("R".toList) ≠
      Except.ok (("bXab".toList).take 2 ++ "R".toList ++ ("bXab".toList).drop 3) := by
  exact ⟨by decide, by decide, by decide, by decide⟩

/-- C7, amended: when the first occurrence of the end marker found by
scanning from `i` lies strictly before `i + len(start_marker)`
(overlapping or coinciding with the start marker), the operation does not
reject the input: it returns `document[0:i] + replacement +
document[j0:]` where `j0` is the end marker's first occurrence in the
whole document (which coincides with the scanned-from-`i` occurrence
whenever the end marker does not also occur before `i`). -/
theorem C7_amended (doc s e r : Doc) (i j : Nat)
    (hs : find s doc = some i) (hj : findFrom e doc i = some j)
    (hovl : j < i + s.length) :
    ∃ j0, find e doc = some j0 ∧
      replace_span doc s e r = Except.ok (doc.take i ++ r ++ doc.drop j0) := by
  obtain ⟨k, hk, rfl⟩ : ∃ k, find e (doc.drop i) = some k ∧ j = k + i := by
    have := hj
    unfold findFrom at this
    cases hfk : find e (doc.drop i) with
    | none => simp [hfk] at this
    | some k =>
      simp [hfk] at this
      exact ⟨k, rfl, this.symm⟩
  have hocc : occursAt e doc (k + i) := by
    have h1 := (find_some_matches e (doc.drop i) k hk).1
    have h2 := (matchesAt_iff e ((doc.drop i).drop k)).mp h1
    rw [List.drop_drop] at h2
    show ∃ t, doc.drop (k + i) = e ++ t
    rwa [Nat.add_comm k i]
  obtain ⟨j0, hj0⟩ := find_isSome_of_occurs e doc (k + i) hocc
  exact ⟨j0, hj0, by simp [replace_span, hs, hj0]⟩

/-- C7, witness of the amended theorem: in `"Xab"` with start marker
`"ab"` at `i = 1` and end marker `"b"`, the scan from 1 finds `j = 2`,
inside the start marker; the operation succeeds with the splice at the
global first occurrence `j0 = 2`. -/
theorem C7_amended_witness :
    ∃ j0, find ("b".toList) ("Xab".toList) = some j0 ∧
      replace_span ("Xab".toList) ("ab".toList) ("b".toList) ("R".toList) =
        Except.ok (("Xab".toList).take 1 ++ "R".toList ++ ("Xab".toList).drop j0) :=
  C7_amended ("Xab".toList) ("ab".toList) ("b".toList) ("R".toList)
    1 2 (by decide) (by decide) (by decide)

/-- Declarative description of the transformation's observable behavior,
read off lines 5-8 of the script: either both markers occur (with first
occurrences `i` and `j`) and the outcome is the splice, or the start
marker occurs nowhere and the outcome is its `MarkerNotFound` failure,
or the start marker occurs but the end marker occurs nowhere and the
outcome is the end marker's `MarkerNotFound` failure. -/
def replaceRel (document s e r : Doc) (res : Except Err Doc) : Prop :=
  (∃ i j, isFirstOcc s document i ∧ isFirstOcc e document j ∧
    res = Except.ok (document.take i ++ r ++ document.drop j)) ∨
  ((∀ k, ¬ occursAt s document k) ∧ res = Except.error (Err.markerNotFound s)) ∨
  ((∃ i, isFirstOcc s document i) ∧ (∀ k, ¬ occursAt e document k) ∧
    res = Except.error (Err.markerNotFound e))

/-- C8: the transformation is a deterministic pure function of its
inputs.  The code's outcome satisfies the declarative relation
`replaceRel`, and that relation admits at most one outcome per input, so
any two runs on the same document, markers and replacement produce
identical results (success value or failure).  The embedding of the
operation is a pure function on the document value (value semantics, no
in-place mutation), faithfully modelling Python's immutable `str`. -/
theorem C8 (doc s e r : Doc) :
    replaceRel doc s e r (replace_span doc s e r) ∧
    ∀ res1 res2, replaceRel doc s e r res1 → replaceRel doc s e r res2 →
      res1 = res2 := by
  constructor
  · cases hfs : find s doc with
    | none =>
      right; left
      refine ⟨?_, by simp [replace_span, hfs]⟩
      intro k hk
      exact Bool.eq_false_iff.mp (find_none_matches s doc hfs k)
        ((matchesAt_iff s (doc.drop k)).mpr hk)
    | some i =>
      cases hfe : find e doc with
      | none =>
        right; right
        refine ⟨⟨i, (find_iff_isFirstOcc s doc i).mp hfs⟩, ?_,
          by simp [replace_span, hfs, hfe]⟩
        intro k hk
        exact Bool.eq_false_iff.mp (find_none_matches e doc hfe k)
          ((matchesAt_iff e (doc.drop k)).mpr hk)
      | some j =>
        left
        exact ⟨i, j, (find_iff_isFirstOcc s doc i).mp hfs,
          (find_iff_isFirstOcc e doc j).mp hfe, by simp [replace_span, hfs, hfe]⟩
  · intro res1 res2 h1 h2
    rcases h1 with ⟨i1, j1, hs1, he1, rfl⟩ | ⟨hno1, rfl⟩ | ⟨⟨i1, hs1⟩, hno1, rfl⟩
    · rcases h2 with ⟨i2, j2, hs2, he2, rfl⟩ | ⟨hno2, h2eq⟩ | ⟨⟨i2, hs2⟩, hno2, h2eq⟩
      · rw [isFirstOcc_unique s doc i1 i2 hs1 hs2,
          isFirstOcc_unique e doc j1 j2 he1 he2]
      · exact absurd hs1.1 (hno2 i1)
      · exact absurd he1.1 (hno2 j1)
    · rcases h2 with ⟨i2, j2, hs2, he2, h2eq⟩ | ⟨hno2, h2eq⟩ | ⟨⟨i2, hs2⟩, hno2, h2eq⟩
      · exact absurd hs2.1 (hno1 i2)
      · rw [h2eq]
      · exact absurd hs2.1 (hno1 i2)
    · rcases h2 with ⟨i2, j2, hs2, he2, h2eq⟩ | ⟨hno2, h2eq⟩ | ⟨⟨i2, hs2⟩, hno2, h2eq⟩
      · exact absurd he2.1 (hno1 j2)
      · exact absurd hs1.1 (hno2 i1)
      · rw [h2eq]

/-- C8, witness: on Example 1, the declaratively specified outcome
coincides, by determinism, with the outcome the code computes. -/
theorem C8_witness :
    Except.ok (("ABCstartXYZendDEF".toList).take 3 ++ "R".toList ++
        ("ABCstartXYZendDEF".toList).drop 11) =
      replace_span ("ABCstartXYZendDEF".toList) ("start".toList) ("end".toList)
        ("R".toList) :=
  (C8 ("ABCstartXYZendDEF".toList) ("start".toList) ("end".toList) ("R".toList)).2 _ _
    (Or.inl ⟨3, 11,
      (find_iff_isFirstOcc ("start".toList) ("ABCstartXYZendDEF".toList) 3).mp (by decide),
      (find_iff_isFirstOcc ("end".toList) ("ABCstartXYZendDEF".toList) 11).mp (by decide),
      rfl⟩)
    (C8 ("ABCstartXYZendDEF".toList) ("start".toList) ("end".toList) ("R".toList)).1

/-- C9: the operation is not idempotent in general: there is an input
satisfying the precondition (both markers located, even under the
specification's scan-from-`i` semantics) on which a second application
to the transformed output does not yield the same result as the first
application — here the second run fails because the replacement erased
the start marker. -/
theorem C9 :
    ∃ doc s e r out,
      find s doc = some 1 ∧ findFrom e doc 1 = some 7 ∧
      replace_span doc s e r = Except.ok out ∧
      replace_span out s e r ≠ replace_span doc s e r := by
  refine ⟨"XstartYendZ".toList, "start".toList, "end".toList, "R".toList,
    "XRendZ".toList, by decide, by decide, by decide, by decide⟩
